import Mathlib

/-!
Verification development for a discord bot that schedules stable-diffusion
image-generation jobs. Part 1 embeds the backend HTTP client package
(stable_diffusion_api): the HTTP transport and the JSON (un)marshalling are
external library calls, so they are modelled as oracle fields of an
environment structure, and each function additionally returns the list of
HTTP POSTs it issued, in order.
-/

namespace StableDiffusionAPI

/-- Override settings block of a text-to-image request (Txt2ImgOverrideSettings). -/
structure Txt2ImgOverrideSettings where
  GridFormat : String
  ReturnGrid : Option Bool
  SamplesFormat : String
  NegativeGuidanceMinimumSigma : Rat
  OutdirTxt2ImgSamples : String
deriving DecidableEq, Repr

/-- A text-to-image request (TextToImageRequest). Go float fields are modelled as Rat. -/
structure TextToImageRequest where
  Prompt : String
  NegativePrompt : String
  Width : Int
  Height : Int
  RestoreFaces : Bool
  EnableHR : Bool
  HrScale : Rat
  HrUpscaler : String
  HrSecondPassSteps : Int
  HRResizeX : Int
  HRResizeY : Int
  DenoisingStrength : Rat
  BatchSize : Int
  Seed : Int
  Subseed : Int
  SubseedStrength : Rat
  SamplerName : String
  CfgScale : Rat
  Steps : Int
  NIter : Int
  SaveImages : Bool
  OverrideSettings : Txt2ImgOverrideSettings
deriving DecidableEq, Repr

/-- Wire shape of the txt2img response body (jsonTextToImageResponse). -/
structure jsonTextToImageResponse where
  Images : List String
  Info : String
deriving DecidableEq, Repr

/-- Wire shape of the info string embedded in the response (jsonInfoResponse). -/
structure jsonInfoResponse where
  Seed : Int
  AllSeeds : List Int
  AllSubseeds : List Int
deriving DecidableEq, Repr

/-- Result returned by TextToImage (TextToImageResponse). -/
structure TextToImageResponse where
  Images : List String
  Seeds : List Int
  Subseeds : List Int
  Model : String
deriving DecidableEq, Repr

/-- Payload of the extra-single-image endpoint (upscaleJSONRequest). -/
structure upscaleJSONRequest where
  ResizeMode : Int
  UpscalingResize : Int
  Upscaler1 : String
  Image : String
deriving DecidableEq, Repr

/-- Response of the extra-single-image endpoint (UpscaleResponse). -/
structure UpscaleResponse where
  Image : String
deriving DecidableEq, Repr

/-- An upscale request (UpscaleRequest); the inner pointer is an Option. -/
structure UpscaleRequest where
  ResizeMode : Int
  UpscalingResize : Int
  Upscaler1 : String
  TextToImageRequest : Option TextToImageRequest
deriving DecidableEq, Repr

/-- One HTTP POST issued by the client, recorded with its URL and marshalled body. -/
structure BackendPost where
  url : String
  body : String
deriving DecidableEq, Repr

/-- Environment of external effects used by the client: json.Marshal,
http.NewRequest, the HTTP round trip (client.Do plus reading the body),
json.Unmarshal at its three result types, and the model-extraction regex. -/
structure ApiEnv where
  marshalT2I : TextToImageRequest → Except String String
  marshalUpscale : upscaleJSONRequest → Except String String
  newRequest : String → String → Except String Unit
  doPost : String → String → Except String String
  unmarshalT2IResp : String → Except String jsonTextToImageResponse
  unmarshalInfo : String → Except String jsonInfoResponse
  unmarshalUpscaleResp : String → Except String UpscaleResponse
  extractModel : String → String

/-- The txt2img endpoint URL built from the host. -/
def t2iURL (host : String) : String := host ++ "/sdapi/v1/txt2img"

/-- The extra-single-image endpoint URL built from the host. -/
def upscaleURL (host : String) : String := host ++ "/sdapi/v1/extra-single-image"

/-- Boolean success test for Except. -/
def isOkE {ε α : Type} : Except ε α → Bool
  | .ok _ => true
  | .error _ => false

/-- Embedding of apiImpl.TextToImage: nil check, marshal, build request, POST,
unmarshal the body, unmarshal the embedded info string, assemble the response.
The first component is the list of POSTs issued. -/
def TextToImage (env : ApiEnv) (host : String) (req : Option TextToImageRequest) :
    List BackendPost × Except String TextToImageResponse :=
  match req with
  | none => ([], .error "missing request")
  | some r =>
    match env.marshalT2I r with
    | .error e => ([], .error e)
    | .ok jsonData =>
      match env.newRequest (t2iURL host) jsonData with
      | .error e => ([], .error e)
      | .ok _ =>
        match env.doPost (t2iURL host) jsonData with
        | .error e => ([⟨t2iURL host, jsonData⟩], .error e)
        | .ok body =>
          match env.unmarshalT2IResp body with
          | .error e => ([⟨t2iURL host, jsonData⟩], .error e)
          | .ok respStruct =>
            match env.unmarshalInfo respStruct.Info with
            | .error e => ([⟨t2iURL host, jsonData⟩], .error e)
            | .ok infoStruct =>
              ([⟨t2iURL host, jsonData⟩],
                .ok ⟨respStruct.Images, infoStruct.AllSeeds, infoStruct.AllSubseeds,
                  env.extractModel respStruct.Info⟩)

/-- Outcome of UpscaleImage: a Go function can return a value, return an error,
or panic at runtime; the unconditional index regeneratedImage.Images[0] is the
one panic site, modelled explicitly. -/
inductive UpscaleOutcome
  | ok (r : UpscaleResponse)
  | err (e : String)
  | panics (msg : String)
deriving DecidableEq, Repr

/-- Embedding of apiImpl.UpscaleImage: nil checks, force NIter to 1 on the inner
request, regenerate via TextToImage, read Images[0] of the regeneration
(panics when the list is empty), then POST the upscale payload and unmarshal. -/
def UpscaleImage (env : ApiEnv) (host : String) (upscaleReq : Option UpscaleRequest) :
    List BackendPost × UpscaleOutcome :=
  match upscaleReq with
  | none => ([], .err "missing request")
  | some ureq =>
    match ureq.TextToImageRequest with
    | none => ([], .err "missing text to image request")
    | some textToImageReq =>
      let req1 := { textToImageReq with NIter := 1 }
      match TextToImage env host (some req1) with
      | (calls, .error e) => (calls, .err e)
      | (calls, .ok regeneratedImage) =>
        match regeneratedImage.Images with
        | [] => (calls, .panics "index out of range")
        | img :: _ =>
          let jsonReq : upscaleJSONRequest :=
            ⟨ureq.ResizeMode, ureq.UpscalingResize, ureq.Upscaler1, img⟩
          match env.marshalUpscale jsonReq with
          | .error e => (calls, .err e)
          | .ok jsonData =>
            match env.newRequest (upscaleURL host) jsonData with
            | .error e => (calls, .err e)
            | .ok _ =>
              match env.doPost (upscaleURL host) jsonData with
              | .error e => (calls ++ [⟨upscaleURL host, jsonData⟩], .err e)
              | .ok body =>
                match env.unmarshalUpscaleResp body with
                | .error e => (calls ++ [⟨upscaleURL host, jsonData⟩], .err e)
                | .ok respStruct => (calls ++ [⟨upscaleURL host, jsonData⟩], .ok respStruct)

/-- Number of POSTs in a trace that target the given URL. -/
def countCallsTo (u : String) (calls : List BackendPost) : Nat :=
  (calls.filter (fun c => c.url == u)).length

end StableDiffusionAPI

/-!
Part 2: the generation job scheduler (package imagine_queue). The package
itself is not among the available source files; only its callers and the
specification describe it. All definitions in this namespace are therefore
modelled from the spec (sections 3, 4.1, 4.2, 5, 7).
-/

namespace ImagineQueueSpec

/-- Modelled from the spec: job Options (section 3 data model). -/
structure Options where
  prompt : String
  negativePrompt : String
  sampler : String
  width : Nat
  height : Nat
  cfgScale : Rat
  seed : Int
  steps : Nat
  batchCount : Nat
  restoreFaces : Bool
deriving DecidableEq, Repr

/-- Modelled from the spec: the four job kinds. -/
inductive JobKind
  | fresh
  | reroll
  | variation
  | upscale
deriving DecidableEq, Repr

/-- Modelled from the spec: a Job (section 3). SourceRef is an opaque identity,
modelled as Nat; SourceIndex selects a sub-image of a prior multi-image result. -/
structure Job where
  id : Nat
  kind : JobKind
  options : Options
  sourceRef : Nat
  sourceIndex : Nat
deriving DecidableEq, Repr

/-- Modelled from the spec: a completed generation result (section 3). -/
structure GenerationResult where
  images : List String
  seeds : List Int
  subseeds : List Int
  model : String
deriving DecidableEq, Repr

/-- Modelled from the spec: a History entry, the stored Options plus result. -/
structure HistoryEntry where
  options : Options
  result : GenerationResult
deriving DecidableEq, Repr

/-- Modelled from the spec: History keyed by SourceRef, one entry per key. -/
def History : Type := List (Nat × HistoryEntry)

/-- Modelled from the spec: the backend fresh-seed sentinel used by Reroll. -/
def freshSeedSentinel : Int := -1

/-- Modelled from the spec: the two resolution failure kinds (section 7). -/
inductive ResolutionError
  | NotFound
  | OutOfRange
deriving DecidableEq, Repr

/-- Modelled from the spec: derived-job resolution (section 4.2). Reroll copies
stored Options with the fresh-seed sentinel; Variation copies Options and seed
and checks SourceIndex against the stored image count; Upscale copies Options
and forces single-image regeneration, with the same checks as Variation. -/
def resolve (hist : History) (job : Job) : Except ResolutionError Options :=
  match job.kind with
  | .fresh => .ok job.options
  | .reroll =>
    match List.lookup job.sourceRef hist with
    | none => .error .NotFound
    | some entry => .ok { entry.options with seed := freshSeedSentinel }
  | .variation =>
    match List.lookup job.sourceRef hist with
    | none => .error .NotFound
    | some entry =>
      if entry.result.images.length < job.sourceIndex then .error .OutOfRange
      else .ok entry.options
  | .upscale =>
    match List.lookup job.sourceRef hist with
    | none => .error .NotFound
    | some entry =>
      if entry.result.images.length < job.sourceIndex then .error .OutOfRange
      else .ok { entry.options with batchCount := 1 }

/-- Modelled from the spec: the Render Backend seen by the Worker, as oracles. -/
structure BackendOracle where
  textToImage : Options → Except String GenerationResult
  upscaleImage : String → Except String String

/-- Modelled from the spec: outward-visible events of one Worker iteration —
backend calls and the OnDelivered / OnFailed notifications. -/
inductive WorkerEvent
  | backendT2I (opts : Options)
  | backendUpscale (image : String)
  | onDelivered (jobId : Nat)
  | onFailed (jobId : Nat)
deriving DecidableEq, Repr

/-- Test for a backend call event. -/
def isBackendCall : WorkerEvent → Bool
  | .backendT2I _ => true
  | .backendUpscale _ => true
  | _ => false

/-- Test for a terminal notification event. -/
def isTerminalNotification : WorkerEvent → Bool
  | .onDelivered _ => true
  | .onFailed _ => true
  | _ => false

/-- Modelled from the spec: overwrite the single History entry of a SourceRef. -/
def histUpdate (hist : History) (ref : Nat) (e : HistoryEntry) : History :=
  (ref, e) :: hist.filter (fun p => !(p.1 == ref))

/-- Modelled from the spec: one Worker iteration for one dequeued Job
(section 4.1 steps 2 to 5): resolve first; on resolution failure skip the
backend and report failure; otherwise one TextToImage call (plus the upscale
call for Upscale jobs), then exactly one terminal notification, updating
History on success only. -/
def processJob (oracle : BackendOracle) (hist : History) (job : Job) :
    List WorkerEvent × History :=
  match resolve hist job with
  | .error _ => ([.onFailed job.id], hist)
  | .ok opts =>
    match job.kind with
    | .upscale =>
      match oracle.textToImage opts with
      | .error _ => ([.backendT2I opts, .onFailed job.id], hist)
      | .ok res =>
        let image := res.images.headD ""
        match oracle.upscaleImage image with
        | .error _ => ([.backendT2I opts, .backendUpscale image, .onFailed job.id], hist)
        | .ok _ =>
          ([.backendT2I opts, .backendUpscale image, .onDelivered job.id],
            histUpdate hist job.sourceRef ⟨opts, res⟩)
    | _ =>
      match oracle.textToImage opts with
      | .error _ => ([.backendT2I opts, .onFailed job.id], hist)
      | .ok res =>
        ([.backendT2I opts, .onDelivered job.id],
          histUpdate hist job.sourceRef ⟨opts, res⟩)

/-- Modelled from the spec: the per-Job state machine (section 4.1). -/
inductive JobState
  | queued
  | rendering
  | completed
  | failed
deriving DecidableEq, Repr

/-- Modelled from the spec: the allowed per-Job transitions; both terminal
states have none. -/
def jobStep : JobState → JobState → Bool
  | .queued, .rendering => true
  | .rendering, .completed => true
  | .rendering, .failed => true
  | _, _ => false

/-- Modelled from the spec: the Worker phase — idle, or blocked inside exactly
one synchronous render call (section 5). -/
inductive WorkerPhase
  | idle
  | rendering (j : Job)

/-- Modelled from the spec: scheduler state — the pending buffer, the Worker
phase, and the number of render calls currently outstanding at the backend. -/
structure SchedState where
  pending : List Job
  worker : WorkerPhase
  outstanding : Nat

/-- Modelled from the spec: Submit appends to the pending buffer and returns
the 1-based count of jobs at-or-ahead of the new job, atomically (section 4.1). -/
def Submit (s : SchedState) (j : Job) : SchedState × Nat :=
  ({ s with pending := s.pending ++ [j] }, s.pending.length + 1)

/-- Sequential composition of Submit over a list of jobs, collecting positions. -/
def submitAll (s : SchedState) (jobs : List Job) : SchedState × List Nat :=
  match jobs with
  | [] => (s, [])
  | j :: rest =>
    let step1 := Submit s j
    let step2 := submitAll step1.1 rest
    (step2.1, step1.2 :: step2.2)

/-- Modelled from the spec: scheduler transitions (section 5). Any number of
submitters may run; the single Worker issues a render call only from idle and
the call is synchronous, returning before the Worker does anything else. -/
inductive SchedStep : SchedState → SchedState → Prop
  | submit (s : SchedState) (j : Job) : SchedStep s (Submit s j).1
  | issue (j : Job) (rest : List Job) (s : SchedState)
      (hp : s.pending = j :: rest) (hw : s.worker = .idle) :
      SchedStep s ⟨rest, .rendering j, s.outstanding + 1⟩
  | finish (j : Job) (s : SchedState) (hw : s.worker = .rendering j) :
      SchedStep s { s with worker := .idle, outstanding := s.outstanding - 1 }

/-- The initial scheduler state: empty buffer, idle Worker, no call in flight. -/
def initState : SchedState := ⟨[], .idle, 0⟩

/-- States reachable from the initial state by scheduler transitions. -/
def Reachable (s : SchedState) : Prop :=
  Relation.ReflTransGen SchedStep initState s

/-- Render calls accounted for by the Worker phase: one while rendering. -/
def phaseLoad : WorkerPhase → Nat
  | .idle => 0
  | .rendering _ => 1

end ImagineQueueSpec

/-!
Part 3: the chat front door (package discord_bot). The interaction handlers
are embedded as pure functions from the interaction data to the list of
AddImagine calls issued to the queue and the interaction response content.
The queue itself is behind an oracle; message sends and log lines carry no
state and are dropped. The imagine_queue types the bot constructs
(QueueItem and its options) are not among the available sources, so their
shape is modelled from the fields this file sets.
-/

namespace DiscordBotFrontDoor

/-- Modelled from the spec: imagine_queue item types referenced by the bot. -/
inductive ItemType
  | imagine
  | reroll
  | upscale
  | variation
deriving DecidableEq, Repr

/-- Modelled from the spec: imagine_queue.QueueItemOptions, with the fields the
bot sets (Prompt, NegativePrompt, RestoreFaces, CfgScale, Seed, SamplerName,
Steps). -/
structure QueueItemOptions where
  Prompt : String
  NegativePrompt : String
  SamplerName : String
  RestoreFaces : Bool
  CfgScale : Rat
  Seed : Int
  Steps : Int
deriving DecidableEq, Repr

/-- Modelled from the spec: imagine_queue.NewQueueItemOptions, the default
options value; the concrete default constants live outside the available
sources, so neutral values stand in for them (no claim depends on them). -/
def NewQueueItemOptions : QueueItemOptions :=
  ⟨"", "", "", false, 0, 0, 0⟩

/-- Modelled from the spec: imagine_queue.QueueItem as the bot constructs it
(the opaque DiscordInteraction handle is omitted; the Go field named Type is
rendered itemType, since Type is reserved here). -/
structure QueueItem where
  Prompt : String
  Options : QueueItemOptions
  itemType : ItemType
  InteractionIndex : Int
deriving DecidableEq, Repr

/-- Value carried by one interaction option; discordgo numbers are Rat here. -/
inductive OptValue
  | str (s : String)
  | int (i : Int)
  | boolean (b : Bool)
  | num (q : Rat)
deriving DecidableEq, Repr

/-- StringValue accessor: the string payload, or empty for other shapes. -/
def stringValue : OptValue → String
  | .str s => s
  | _ => ""

/-- IntValue accessor. -/
def intValue : OptValue → Int
  | .int i => i
  | _ => 0

/-- BoolValue accessor. -/
def boolValue : OptValue → Bool
  | .boolean b => b
  | _ => false

/-- FloatValue accessor. -/
def floatValue : OptValue → Rat
  | .num q => q
  | _ => 0

/-- One named option of an application-command interaction. -/
structure CmdOption where
  name : String
  value : OptValue
deriving DecidableEq, Repr

/-- The interaction data the handlers read: guild, invoking member, options. -/
structure Interaction where
  guildID : String
  memberUserID : String
  options : List CmdOption
deriving DecidableEq, Repr

/-- Go builds optionMap by inserting every option under its name, so a later
option with the same name wins; lookup returns that last occurrence. -/
def optionMapGet (opts : List CmdOption) (n : String) : Option CmdOption :=
  (opts.filter (fun o => o.name == n)).getLast?

/-- A single-quote string, kept out of literals for lexical hygiene. -/
def squote : String := String.singleton (Char.ofNat 39)

/-- The non-DM response text of processImagineCommand. -/
def dreamMessage (position : Int) (userID prompt : String) : String :=
  "I" ++ squote ++ "m dreaming something up for you. You are currently #" ++
    toString position ++ " in line.\n<@" ++ userID ++ "> asked me to imagine \"" ++
    prompt ++ "\"."

/-- The non-DM response text of processImagineExtCommand (backquoted prompt). -/
def dreamMessageExt (position : Int) (userID prompt : String) : String :=
  "I" ++ squote ++ "m dreaming something up for you. You are currently #" ++
    toString position ++ " in line.\n<@" ++ userID ++ "> asked me to imagine `" ++
    prompt ++ "`."

/-- The queue behind AddImagine: returns the position and an optional error. -/
def AddImagineOracle : Type := QueueItem → Int × Option String

/-- Embedding of botImpl.processImagineCommand: returns the AddImagine calls
issued and the interaction response content. DM usage (empty GuildID) submits
nothing and answers with the fixed refusal text. -/
def processImagineCommand (addImagine : AddImagineOracle) (i : Interaction) :
    List QueueItem × String :=
  let isDM := i.guildID == ""
  let submitted :=
    match optionMapGet i.options "prompt" with
    | some opt =>
      let prompt := stringValue opt.value
      if !isDM then
        let item : QueueItem := ⟨prompt, NewQueueItemOptions, .imagine, 0⟩
        let posErr := addImagine item
        ([item], posErr.1, prompt)
      else ([], 0, prompt)
    | none => ([], 0, "")
  let message :=
    if isDM then "DM usage is not allowed."
    else dreamMessage submitted.2.1 i.memberUserID submitted.2.2
  (submitted.1, message)

/-- Option name constants of the extended imagine command. -/
def extOptionAR : String := "aspect_ratio"

/-- Option name constant cfg_scale. -/
def extOptionCFGScale : String := "cfg_scale"

/-- Option name constant embeddings. -/
def extOptionEmbeddings : String := "embeddings"

/-- Option name constant negative_prompt. -/
def extOptionNegativePrompt : String := "negative_prompt"

/-- Option name constant prompt. -/
def extOptionPrompt : String := "prompt"

/-- Option name constant restore_faces. -/
def extOptionRestoreFaces : String := "restore_faces"

/-- Option name constant sampler. -/
def extOptionSampler : String := "sampler"

/-- Option name constant seed. -/
def extOptionSeed : String := "seed"

/-- Option name constant steps. -/
def extOptionSteps : String := "steps"

/-- One arm of the option switch in processImagineExtCommand, applied to the
accumulated queue options. -/
def applyExtOption (qo : QueueItemOptions) (opt : CmdOption) : QueueItemOptions :=
  if opt.name == extOptionAR then
    let aspectRatio := stringValue opt.value
    if aspectRatio != "" then { qo with Prompt := qo.Prompt ++ " " ++ aspectRatio } else qo
  else if opt.name == extOptionPrompt then { qo with Prompt := stringValue opt.value }
  else if opt.name == extOptionNegativePrompt then
    { qo with NegativePrompt := stringValue opt.value }
  else if opt.name == extOptionRestoreFaces then { qo with RestoreFaces := boolValue opt.value }
  else if opt.name == extOptionCFGScale then { qo with CfgScale := floatValue opt.value }
  else if opt.name == extOptionSeed then { qo with Seed := intValue opt.value }
  else if opt.name == extOptionSampler then { qo with SamplerName := stringValue opt.value }
  else if opt.name == extOptionEmbeddings then
    { qo with Prompt := qo.Prompt ++ ", " ++ stringValue opt.value }
  else if opt.name == extOptionSteps then { qo with Steps := intValue opt.value }
  else qo

/-- Embedding of botImpl.processImagineExtCommand: fold the option switch over
the options in order, then submit unless the interaction is a DM. -/
def processImagineExtCommand (addImagine : AddImagineOracle) (i : Interaction) :
    List QueueItem × String :=
  let queueOptions := i.options.foldl applyExtOption NewQueueItemOptions
  let isDM := i.guildID == ""
  let submitted :=
    if !isDM then
      let item : QueueItem := ⟨queueOptions.Prompt, queueOptions, .imagine, 0⟩
      let posErr := addImagine item
      ([item], posErr.1)
    else ([], 0)
  let message :=
    if isDM then "DM usage is not allowed."
    else dreamMessageExt submitted.2 i.memberUserID queueOptions.Prompt
  (submitted.1, message)

/-- What the dimension-setting menu branch does with the queue: no call (early
return on a parse failure or an empty value list), a call to
UpdateDefaultDimensions with its two arguments in order, or a runtime panic
(indexing sizes[1] when the value has no underscore). -/
inductive DimensionCall
  | noCall
  | call (width height : Int)
  | panics
deriving DecidableEq, Repr

/-- Embedding of botImpl.processImagineDimensionSetting. Its parameters are
declared in the order (height, width); it returns the argument pair passed to
UpdateDefaultDimensions, width first. -/
def processImagineDimensionSetting (height width : Int) : Int × Int :=
  (width, height)

/-- Character-wise split on a separator, the semantics of strings.Split for a
one-character separator, written so it evaluates inside the kernel. -/
def splitChars (sep : Char) : List Char → List (List Char)
  | [] => [[]]
  | c :: rest =>
    let r := splitChars sep rest
    if c = sep then [] :: r
    else
      match r with
      | [] => [[c]]
      | g :: gs => (c :: g) :: gs

/-- strings.Split on the underscore separator. -/
def splitUnderscore (s : String) : List String :=
  (splitChars '_' s.data).map (fun cs => String.mk cs)

/-- Decimal digit value of a character, if it is a digit. -/
def charDigit (c : Char) : Option Nat :=
  if 48 ≤ c.toNat ∧ c.toNat ≤ 57 then some (c.toNat - 48) else none

/-- Accumulate decimal digits; any non-digit makes the parse fail. -/
def readNatAux : List Char → Nat → Option Nat
  | [], acc => some acc
  | c :: rest, acc =>
    match charDigit c with
    | none => none
    | some d => readNatAux rest (acc * 10 + d)

/-- Parse a non-empty all-digit string. -/
def readNat : List Char → Option Nat
  | [] => none
  | cs => readNatAux cs 0

/-- Embedding of strconv.Atoi: optional sign, then decimal digits. -/
def Atoi (s : String) : Option Int :=
  match s.data with
  | [] => none
  | c :: rest =>
    if c = '-' then (readNat rest).map (fun n => -(n : Int))
    else if c = '+' then (readNat rest).map (fun n => (n : Int))
    else (readNat s.data).map (fun n => (n : Int))

/-- Embedding of the imagine_dimension_setting_menu branch of the interaction
dispatcher in New: take the first selected value, split it on the underscore
into width (sizes[0]) and height (sizes[1]), Atoi both, then invoke
processImagineDimensionSetting with (widthInt, heightInt). -/
def dimensionSettingMenuHandler (values : List String) : DimensionCall :=
  match values with
  | [] => .noCall
  | v :: _ =>
    let sizes := splitUnderscore v
    match sizes.get? 0, sizes.get? 1 with
    | some w, some h =>
      match Atoi w with
      | none => .noCall
      | some widthInt =>
        match Atoi h with
        | none => .noCall
        | some heightInt =>
          let args := processImagineDimensionSetting widthInt heightInt
          .call args.1 args.2
    | _, _ => .panics

/-- Application-command option types used by the ext command registration. -/
inductive OptionType
  | stringT
  | integerT
  | booleanT
  | numberT
deriving DecidableEq, Repr

/-- One registered application-command option: type, name, required flag and
choice list as (name, value) pairs. Description texts and numeric bounds are
omitted: they involve default constants outside the available sources and no
claim mentions them. -/
structure AppCommandOption where
  type : OptionType
  name : String
  required : Bool
  choices : List (String × String)
deriving DecidableEq, Repr

/-- The aspect-ratio choices of the ext command. -/
def arChoices : List (String × String) :=
  [("1:1  (square, 512×512)", ""),
   ("4:3  (horizontal, 688×512)", "--ar 4:3"),
   ("16:10 (horizontal wide, 824×512)", "--ar 16:10"),
   ("16:9 (horizontal wide, 912×512)", "--ar 16:9"),
   ("3:4 (vertical, 512×688)", "--ar 3:4"),
   ("10:16 (vertical narrow, 512×824)", "--ar 10:16"),
   ("9:16 (vertical narrow, 512×912)", "--ar 9:16")]

/-- The sampler choices of the ext command. -/
def samplerChoices : List (String × String) :=
  [("DPM++ 2M Karras", "DPM++ 2M Karras"),
   ("Euler a", "Euler a"),
   ("DDIM", "DDIM"),
   ("PLMS", "PLMS"),
   ("UniPC", "UniPC"),
   ("Heun", "Heun"),
   ("Euler", "Euler"),
   ("LMS", "LMS"),
   ("LMS Karras", "LMS Karras"),
   ("DPM2 a", "DPM2 a"),
   ("DPM2 a Karras", "DPM2 a Karras"),
   ("DPM2", "DPM2"),
   ("DPM2 Karras", "DPM2 Karras"),
   ("DPM fast", "DPM fast"),
   ("DPM adaptive", "DPM adaptive"),
   ("DPM++ 2S a", "DPM++ 2S a"),
   ("DPM++ 2M", "DPM++ 2M"),
   ("DPM++ SDE", "DPM++ SDE"),
   ("DPM++ 2S a Karras", "DPM++ 2S a Karras"),
   ("DPM++ SDE Karras", "DPM++ SDE Karras")]

/-- The eight statically declared options of addImagineExtCommand, in order. -/
def baseExtCommandOptions : List AppCommandOption :=
  [⟨.stringT, extOptionPrompt, true, []⟩,
   ⟨.stringT, extOptionAR, false, arChoices⟩,
   ⟨.stringT, extOptionNegativePrompt, false, []⟩,
   ⟨.booleanT, extOptionRestoreFaces, false, []⟩,
   ⟨.numberT, extOptionCFGScale, false, []⟩,
   ⟨.integerT, extOptionSeed, false, []⟩,
   ⟨.stringT, extOptionSampler, false, samplerChoices⟩,
   ⟨.integerT, extOptionSteps, false, []⟩]

/-- The embeddings choice loop of addImagineExtCommand: append one choice per
loaded embedding, stopping as soon as 25 choices are accumulated. The iteration
order of the Go map is the order of the given list. -/
def buildEmbeddingChoices (options : List (String × String)) :
    List String → List (String × String)
  | [] => options
  | embed :: rest =>
    let options2 := options ++ [(embed, embed)]
    if options2.length = 25 then options2 else buildEmbeddingChoices options2 rest

/-- Embedding of the option-list construction of addImagineExtCommand: the
static options, plus an embeddings option appended only when the embeddings
response has at least one loaded embedding. -/
def addImagineExtCommandOptions (loaded : List String) : List AppCommandOption :=
  if 0 < loaded.length then
    baseExtCommandOptions ++
      [⟨.stringT, extOptionEmbeddings, false, buildEmbeddingChoices [] loaded⟩]
  else baseExtCommandOptions

end DiscordBotFrontDoor

/-!
Part 4: the claims.
-/

open StableDiffusionAPI ImagineQueueSpec DiscordBotFrontDoor

namespace ImagineQueueSpec

/-- Submitting a list of jobs to a buffer already holding p jobs returns the
positions p+1, p+2, ... in submission order. -/
lemma submitAll_positions (w : WorkerPhase) (o : Nat) :
    ∀ (jobs : List Job) (p : List Job),
      (submitAll ⟨p, w, o⟩ jobs).2 = List.range' (p.length + 1) jobs.length := by
  intro jobs
  induction jobs with
  | nil => intro p; simp [submitAll]
  | cons j rest ih =>
    intro p
    have h2 := ih (p ++ [j])
    simp only [List.length_append, List.length_cons, List.length_nil] at h2
    simp only [submitAll, Submit, List.length_cons, List.range'_succ]
    exact congrArg (List.cons (p.length + 1)) h2

/-- Every reachable scheduler state couples the outstanding-call count to the
Worker phase: zero calls while idle, one while rendering. -/
lemma sched_outstanding_eq (s : SchedState) (h : Reachable s) :
    s.outstanding = phaseLoad s.worker := by
  unfold Reachable at h
  induction h with
  | refl => rfl
  | tail _ step ih =>
    cases step with
    | submit s j => simpa [Submit] using ih
    | issue j rest s hp hw =>
      rw [hw] at ih
      simp only [phaseLoad] at ih ⊢
      omega
    | finish j s hw =>
      rw [hw] at ih
      simp only [phaseLoad] at ih ⊢
      omega

end ImagineQueueSpec

/-- C1: submitting any sequence of N jobs into an empty pending buffer returns
exactly the positions 1..N in submission order (no duplicates, no gaps),
whatever the Worker phase and outstanding-call count are — and every single
Submit returns the 1-based count of jobs at-or-ahead of the inserted job,
computed together with the insertion. -/
theorem claim_C1 :
    ∀ (w : WorkerPhase) (o : Nat) (jobs : List Job),
      (submitAll ⟨[], w, o⟩ jobs).2 = List.range' 1 jobs.length ∧
      ∀ (s : SchedState) (j : Job), (Submit s j).2 = (Submit s j).1.pending.length := by
  intro w o jobs
  constructor
  · simpa using submitAll_positions w o jobs []
  · intro s j
    simp [Submit]

/-- C2: in every reachable scheduler state at most one render call to the
Render Backend is outstanding; the Worker never issues a second call while a
previous one has not yet returned. -/
theorem claim_C2 : ∀ s : SchedState, Reachable s → s.outstanding ≤ 1 := by
  intro s h
  rw [sched_outstanding_eq s h]
  cases hw : s.worker <;> simp [phaseLoad]

/-- Concrete Options value used by witnesses. -/
def opts0 : Options := ⟨"p", "", "Euler a", 512, 512, 7, -1, 20, 1, false⟩

/-- Concrete fresh job used by witnesses. -/
def job0 : Job := ⟨0, .fresh, opts0, 0, 0⟩

/-- Witness for C2: the state reached by one Submit followed by the Worker
issuing its render call is reachable and has at most one call outstanding. -/
theorem claim_C2_witness :
    (⟨[], .rendering job0, 1⟩ : SchedState).outstanding ≤ 1 := by
  apply claim_C2
  have h1 : SchedStep initState ⟨[job0], .idle, 0⟩ := by
    have h := SchedStep.submit initState job0
    simpa [Submit, initState] using h
  have h2 : SchedStep ⟨[job0], .idle, 0⟩ ⟨[], .rendering job0, 1⟩ :=
    SchedStep.issue job0 [] ⟨[job0], .idle, 0⟩ rfl rfl
  exact Relation.ReflTransGen.tail (Relation.ReflTransGen.tail Relation.ReflTransGen.refl h1) h2

/-- C3: for a derived job of kind Variation or Upscale, resolution fails with
NotFound exactly when History has no entry for its SourceRef, fails with
OutOfRange exactly when its SourceIndex exceeds the stored image count of that
entry, and any resolution failure makes the Worker issue zero backend calls
for that job. -/
theorem claim_C3 :
    ∀ (hist : History) (job : Job),
      job.kind = .variation ∨ job.kind = .upscale →
      (resolve hist job = .error .NotFound ↔ List.lookup job.sourceRef hist = none) ∧
      (resolve hist job = .error .OutOfRange ↔
        ∃ entry, List.lookup job.sourceRef hist = some entry ∧
          entry.result.images.length < job.sourceIndex) ∧
      (∀ e, resolve hist job = .error e → ∀ oracle : BackendOracle,
        ((processJob oracle hist job).1.filter isBackendCall).length = 0) := by
  intro hist job hk
  rcases hk with hk | hk <;>
  · rcases hl : List.lookup job.sourceRef hist with _ | entry
    · refine ⟨by simp [resolve, hk, hl], by simp [resolve, hk, hl], ?_⟩
      intro e he oracle
      simp [processJob, resolve, hk, hl, isBackendCall]
    · by_cases hlen : entry.result.images.length < job.sourceIndex
      · refine ⟨by simp [resolve, hk, hl, hlen], by simp [resolve, hk, hl, hlen], ?_⟩
        intro e he oracle
        simp [processJob, resolve, hk, hl, hlen, isBackendCall]
      · refine ⟨by simp [resolve, hk, hl, hlen], by simp [resolve, hk, hl, hlen], ?_⟩
        intro e he oracle
        simp [resolve, hk, hl, hlen] at he

/-- Concrete History entry with four stored images, used by the C3 witness. -/
def entryW : HistoryEntry :=
  ⟨opts0, ⟨["i1", "i2", "i3", "i4"], [1, 2, 3, 4], [5, 6, 7, 8], "m"⟩⟩

/-- Concrete History used by the C3 witness. -/
def histW : History := [(5, entryW)]

/-- Concrete variation job with SourceIndex 5 against four stored images. -/
def jobW : Job := ⟨1, .variation, opts0, 5, 5⟩

/-- Backend oracle that always succeeds, used by witnesses. -/
def oracleW : BackendOracle :=
  ⟨fun _ => .ok ⟨["g"], [1], [2], "m"⟩, fun _ => .ok "up"⟩

/-- Witness for C3: SourceIndex 5 against a History entry with 4 stored images
resolves to OutOfRange and triggers zero backend calls. -/
theorem claim_C3_witness :
    resolve histW jobW = .error .OutOfRange ∧
    ((processJob oracleW histW jobW).1.filter isBackendCall).length = 0 := by
  have h := claim_C3 histW jobW (Or.inl rfl)
  have h1 : resolve histW jobW = .error .OutOfRange :=
    h.2.1.mpr ⟨entryW, rfl, by decide⟩
  exact ⟨h1, h.2.2 .OutOfRange h1 oracleW⟩

/-- C7: every job the Worker takes up produces exactly one terminal outward
notification (OnDelivered or OnFailed), never zero and never two — and the
per-job state machine has no transition out of either terminal state. -/
theorem claim_C7 :
    (∀ (oracle : BackendOracle) (hist : History) (job : Job),
        ((processJob oracle hist job).1.filter isTerminalNotification).length = 1) ∧
    (∀ t : JobState, jobStep .completed t = false ∧ jobStep .failed t = false) := by
  constructor
  · intro oracle hist job
    rcases hres : resolve hist job with e | opts
    · simp [processJob, hres, isTerminalNotification]
    · rcases hk : job.kind
      · rcases ht : oracle.textToImage opts with e1 | res <;>
          simp [processJob, hres, hk, ht, isTerminalNotification]
      · rcases ht : oracle.textToImage opts with e1 | res <;>
          simp [processJob, hres, hk, ht, isTerminalNotification]
      · rcases ht : oracle.textToImage opts with e1 | res <;>
          simp [processJob, hres, hk, ht, isTerminalNotification]
      · rcases ht : oracle.textToImage opts with e1 | res
        · simp [processJob, hres, hk, ht, isTerminalNotification]
        · rcases hu : oracle.upscaleImage (res.images.headD "") with e2 | u <;>
            rw [List.headD_eq_head?] at hu <;>
            simp [processJob, hres, hk, ht, hu, isTerminalNotification]
  · intro t
    cases t <;> simp [jobStep]

/-- C5 (refuted, code slip): on the menu value "688_512", of the form W_H with
W = 688 and H = 512, the dispatcher parses width 688 and height 512, but the
parameter order (height, width) of processImagineDimensionSetting swaps them,
so the core default-dimension update is invoked with width 512 and height 688
— not with (688, 512) as the spec requires. -/
theorem claim_C5 : dimensionSettingMenuHandler ["688_512"] = .call 512 688 := by
  decide

/-- C9: an imagine or extended-imagine interaction whose GuildID is empty (a
direct message) submits nothing to the queue and answers with exactly the DM
refusal text. -/
theorem claim_C9 :
    ∀ (addImagine : AddImagineOracle) (i : Interaction),
      i.guildID = "" →
      processImagineCommand addImagine i = ([], "DM usage is not allowed.") ∧
      processImagineExtCommand addImagine i = ([], "DM usage is not allowed.") := by
  intro addImagine i h
  constructor
  · rcases hp : optionMapGet i.options "prompt" with _ | opt <;>
      simp [processImagineCommand, h, hp]
  · simp [processImagineExtCommand, h]

/-- Queue oracle used by witnesses: accepts everything at position 1. -/
def oracleAdd1 : AddImagineOracle := fun _ => (1, none)

/-- A direct-message imagine interaction with a prompt. -/
def dmInteraction : Interaction := ⟨"", "user1", [⟨"prompt", .str "a cat"⟩]⟩

/-- Witness for C9: the concrete DM interaction is refused with the exact text
and produces no queue submission. -/
theorem claim_C9_witness :
    processImagineCommand oracleAdd1 dmInteraction = ([], "DM usage is not allowed.") ∧
    processImagineExtCommand oracleAdd1 dmInteraction = ([], "DM usage is not allowed.") :=
  claim_C9 oracleAdd1 dmInteraction rfl

namespace DiscordBotFrontDoor

/-- The embeddings choice loop never accumulates more than 25 choices. -/
lemma buildEmbeddingChoices_le :
    ∀ (l : List String) (acc : List (String × String)), acc.length < 25 →
      (buildEmbeddingChoices acc l).length ≤ 25 := by
  intro l
  induction l with
  | nil =>
    intro acc h
    simpa [buildEmbeddingChoices] using Nat.le_of_lt h
  | cons e rest ih =>
    intro acc h
    by_cases h25 : (acc ++ [(e, e)]).length = 25
    · simp [buildEmbeddingChoices, h25]
    · simp only [buildEmbeddingChoices, h25, if_false]
      apply ih
      simp only [List.length_append, List.length_cons, List.length_nil] at h25 ⊢
      omega

/-- None of the statically declared ext-command options is named embeddings. -/
lemma base_no_embeddings : ∀ o ∈ baseExtCommandOptions, ¬ o.name = extOptionEmbeddings := by
  decide

end DiscordBotFrontDoor

/-- C10: the extended imagine command registers an embeddings option exactly
when at least one embedding is loaded, and any registered embeddings option
carries at most 25 choices, however many embeddings the response holds. -/
theorem claim_C10 :
    ∀ loaded : List String,
      (((addImagineExtCommandOptions loaded).any
          (fun o => o.name == extOptionEmbeddings)) = true ↔ 0 < loaded.length) ∧
      (∀ o ∈ addImagineExtCommandOptions loaded, o.name = extOptionEmbeddings →
        o.choices.length ≤ 25) := by
  intro loaded
  by_cases hl : 0 < loaded.length
  · constructor
    · simp [addImagineExtCommandOptions, hl]
    · intro o ho hname
      rw [addImagineExtCommandOptions, if_pos hl] at ho
      rcases List.mem_append.mp ho with hbase | hemb
      · exact absurd hname (base_no_embeddings o hbase)
      · rcases List.mem_singleton.mp hemb with rfl
        simpa using buildEmbeddingChoices_le loaded [] (by simp)
  · have h0 : loaded.length = 0 := Nat.eq_zero_of_not_pos hl
    constructor
    · rw [addImagineExtCommandOptions, if_neg hl, h0]
      simp only [Nat.lt_irrefl, iff_false]
      decide
    · intro o ho hname
      rw [addImagineExtCommandOptions, if_neg hl] at ho
      exact absurd hname (base_no_embeddings o ho)

/-- Thirty loaded embeddings, more than the 25-choice cap. -/
def loaded30 : List String := List.replicate 30 "emb"

/-- Witness for C10: with 30 loaded embeddings the embeddings option is
registered and its (last-appended) option carries at most 25 choices. -/
theorem claim_C10_witness :
    ((addImagineExtCommandOptions loaded30).any
        (fun o => o.name == extOptionEmbeddings)) = true ∧
    ((addImagineExtCommandOptions loaded30).getLastD
        ⟨.stringT, "", false, []⟩).choices.length ≤ 25 := by
  refine ⟨(claim_C10 loaded30).1.mpr (by decide), ?_⟩
  exact (claim_C10 loaded30).2 _ (by decide) (by decide)

namespace StableDiffusionAPI

/-- The two endpoint URLs differ for every host. -/
lemma t2iURL_ne_upscaleURL (host : String) : t2iURL host ≠ upscaleURL host := by
  intro h
  have hd := congrArg String.data h
  simp only [t2iURL, upscaleURL, String.data_append] at hd
  have := List.append_cancel_left hd
  simp at this

/-- Every POST issued by TextToImage targets the txt2img endpoint. -/
lemma t2i_trace_urls (env : ApiEnv) (host : String) (req : Option TextToImageRequest) :
    ∀ c ∈ (TextToImage env host req).1, c.url = t2iURL host := by
  rcases req with _ | r
  · simp [TextToImage]
  rcases hm : env.marshalT2I r with e | jsonData
  · simp [TextToImage, hm]
  rcases hn : env.newRequest (t2iURL host) jsonData with e | u
  · simp [TextToImage, hm, hn]
  rcases hd : env.doPost (t2iURL host) jsonData with e | body
  · simp [TextToImage, hm, hn, hd]
  rcases hu : env.unmarshalT2IResp body with e | rs
  · simp [TextToImage, hm, hn, hd, hu]
  rcases hi : env.unmarshalInfo rs.Info with e | info <;>
    simp [TextToImage, hm, hn, hd, hu, hi]

/-- TextToImage issues at most one POST. -/
lemma t2i_trace_len (env : ApiEnv) (host : String) (req : Option TextToImageRequest) :
    (TextToImage env host req).1.length ≤ 1 := by
  rcases req with _ | r
  · simp [TextToImage]
  rcases hm : env.marshalT2I r with e | jsonData
  · simp [TextToImage, hm]
  rcases hn : env.newRequest (t2iURL host) jsonData with e | u
  · simp [TextToImage, hm, hn]
  rcases hd : env.doPost (t2iURL host) jsonData with e | body
  · simp [TextToImage, hm, hn, hd]
  rcases hu : env.unmarshalT2IResp body with e | rs
  · simp [TextToImage, hm, hn, hd, hu]
  rcases hi : env.unmarshalInfo rs.Info with e | info <;>
    simp [TextToImage, hm, hn, hd, hu, hi]

/-- Once json.Marshal and http.NewRequest succeed, TextToImage issues exactly
the one POST of the marshalled request, whatever the transport and the parsers
then do. -/
lemma t2i_trace_of_ok (env : ApiEnv) (host : String) (r : TextToImageRequest)
    (jsonData : String) (hm : env.marshalT2I r = .ok jsonData)
    (hn : env.newRequest (t2iURL host) jsonData = .ok ()) :
    (TextToImage env host (some r)).1 = [⟨t2iURL host, jsonData⟩] := by
  rcases hd : env.doPost (t2iURL host) jsonData with e | body
  · simp [TextToImage, hm, hn, hd]
  rcases hu : env.unmarshalT2IResp body with e | rs
  · simp [TextToImage, hm, hn, hd, hu]
  rcases hi : env.unmarshalInfo rs.Info with e | info <;>
    simp [TextToImage, hm, hn, hd, hu, hi]

/-- The trace of UpscaleImage on a request with an inner text-to-image request
is the trace of the inner TextToImage call followed by POSTs (at most one) to
the upscale endpoint only. -/
lemma upscale_trace_decomp (env : ApiEnv) (host : String) (ureq : UpscaleRequest)
    (r : TextToImageRequest) (h : ureq.TextToImageRequest = some r) :
    ∃ rest, (UpscaleImage env host (some ureq)).1 =
        (TextToImage env host (some { r with NIter := 1 })).1 ++ rest ∧
      (∀ c ∈ rest, c.url = upscaleURL host) ∧ rest.length ≤ 1 := by
  rcases ht : TextToImage env host (some { r with NIter := 1 }) with ⟨calls, tres⟩
  rcases tres with e | resp
  · exact ⟨[], by simp [UpscaleImage, h, ht], by simp, by simp⟩
  rcases himg : resp.Images with _ | ⟨img, tl⟩
  · exact ⟨[], by simp [UpscaleImage, h, ht, himg], by simp, by simp⟩
  rcases hm : env.marshalUpscale ⟨ureq.ResizeMode, ureq.UpscalingResize, ureq.Upscaler1, img⟩
      with e | jsonData
  · exact ⟨[], by simp [UpscaleImage, h, ht, himg, hm], by simp, by simp⟩
  rcases hn : env.newRequest (upscaleURL host) jsonData with e | u
  · exact ⟨[], by simp [UpscaleImage, h, ht, himg, hm, hn], by simp, by simp⟩
  rcases hd : env.doPost (upscaleURL host) jsonData with e | body
  · exact ⟨[⟨upscaleURL host, jsonData⟩],
      by simp [UpscaleImage, h, ht, himg, hm, hn, hd], by simp, by simp⟩
  rcases hu : env.unmarshalUpscaleResp body with e | rs <;>
    exact ⟨[⟨upscaleURL host, jsonData⟩],
      by simp [UpscaleImage, h, ht, himg, hm, hn, hd, hu], by simp, by simp⟩

/-- Counting POSTs distributes over trace concatenation. -/
lemma countCallsTo_append (u : String) (a b : List BackendPost) :
    countCallsTo u (a ++ b) = countCallsTo u a + countCallsTo u b := by
  simp [countCallsTo, List.filter_append]

/-- A trace whose POSTs all target a different URL counts zero. -/
lemma countCallsTo_eq_zero (u : String) (calls : List BackendPost)
    (h : ∀ c ∈ calls, ¬ c.url = u) : countCallsTo u calls = 0 := by
  simp only [countCallsTo, List.length_eq_zero]
  refine List.filter_eq_nil_iff.mpr ?_
  intro c hc
  simpa using h c hc

/-- When the inner TextToImage call fails, UpscaleImage returns that error and
its trace is exactly the inner trace. -/
lemma upscale_of_t2i_error (env : ApiEnv) (host : String) (ureq : UpscaleRequest)
    (r : TextToImageRequest) (h : ureq.TextToImageRequest = some r) (e : String)
    (he : (TextToImage env host (some { r with NIter := 1 })).2 = .error e) :
    UpscaleImage env host (some ureq) =
      ((TextToImage env host (some { r with NIter := 1 })).1, .err e) := by
  rcases ht : TextToImage env host (some { r with NIter := 1 }) with ⟨calls, tres⟩
  rw [ht] at he
  simp only at he
  subst he
  simp [UpscaleImage, h, ht]

/-- When the inner TextToImage call succeeds with a first image and the upscale
payload marshals and builds, UpscaleImage issues exactly one further POST, of
that payload, to the upscale endpoint. -/
lemma upscale_of_pipe (env : ApiEnv) (host : String) (ureq : UpscaleRequest)
    (r : TextToImageRequest) (h : ureq.TextToImageRequest = some r)
    (resp : TextToImageResponse) (img : String) (tl : List String)
    (hresp : (TextToImage env host (some { r with NIter := 1 })).2 = .ok resp)
    (himg : resp.Images = img :: tl) (jsonData : String)
    (hm : env.marshalUpscale ⟨ureq.ResizeMode, ureq.UpscalingResize, ureq.Upscaler1, img⟩ =
      .ok jsonData)
    (hn : env.newRequest (upscaleURL host) jsonData = .ok ()) :
    (UpscaleImage env host (some ureq)).1 =
      (TextToImage env host (some { r with NIter := 1 })).1 ++
        [⟨upscaleURL host, jsonData⟩] := by
  rcases ht : TextToImage env host (some { r with NIter := 1 }) with ⟨calls, tres⟩
  rw [ht] at hresp
  simp only at hresp
  subst hresp
  rcases hd : env.doPost (upscaleURL host) jsonData with e | body
  · simp [UpscaleImage, h, ht, himg, hm, hn, hd]
  rcases hu : env.unmarshalUpscaleResp body with e | rs <;>
    simp [UpscaleImage, h, ht, himg, hm, hn, hd, hu]

end StableDiffusionAPI

/-- C4: for every upscale request with a non-nil inner text-to-image request,
UpscaleImage forces the regeneration batch count to 1 (the inner call is made
with NIter set to 1), issues at most — and, once json.Marshal and
http.NewRequest succeed, exactly — one txt2img POST, first; every further POST
targets the upscale endpoint, and the number of txt2img POSTs of the whole run
equals that of the inner call alone; when the inner call fails no upscale POST
is issued and its error is returned; when it succeeds, its first regenerated
image is piped as the payload of the single upscale POST. -/
theorem claim_C4 :
    ∀ (env : ApiEnv) (host : String) (ureq : UpscaleRequest) (r : TextToImageRequest),
      ureq.TextToImageRequest = some r →
      (∀ e, (TextToImage env host (some { r with NIter := 1 })).2 = .error e →
        UpscaleImage env host (some ureq) =
          ((TextToImage env host (some { r with NIter := 1 })).1, .err e) ∧
        countCallsTo (upscaleURL host) (UpscaleImage env host (some ureq)).1 = 0) ∧
      (∀ jsonData, env.marshalT2I { r with NIter := 1 } = .ok jsonData →
        env.newRequest (t2iURL host) jsonData = .ok () →
        countCallsTo (t2iURL host) (TextToImage env host (some { r with NIter := 1 })).1 = 1) ∧
      (countCallsTo (t2iURL host) (UpscaleImage env host (some ureq)).1 =
        countCallsTo (t2iURL host) (TextToImage env host (some { r with NIter := 1 })).1) ∧
      (∃ rest, (UpscaleImage env host (some ureq)).1 =
          (TextToImage env host (some { r with NIter := 1 })).1 ++ rest ∧
        ∀ c ∈ rest, c.url = upscaleURL host) ∧
      (∀ resp img tl, (TextToImage env host (some { r with NIter := 1 })).2 = .ok resp →
        resp.Images = img :: tl →
        ∀ jsonData,
          env.marshalUpscale ⟨ureq.ResizeMode, ureq.UpscalingResize, ureq.Upscaler1, img⟩ =
            .ok jsonData →
          env.newRequest (upscaleURL host) jsonData = .ok () →
          (UpscaleImage env host (some ureq)).1 =
            (TextToImage env host (some { r with NIter := 1 })).1 ++
              [⟨upscaleURL host, jsonData⟩]) := by
  intro env host ureq r h
  obtain ⟨rest, hrest, hurls, hlen⟩ := upscale_trace_decomp env host ureq r h
  refine ⟨?_, ?_, ?_, ⟨rest, hrest, hurls⟩, ?_⟩
  · intro e he
    refine ⟨upscale_of_t2i_error env host ureq r h e he, ?_⟩
    rw [upscale_of_t2i_error env host ureq r h e he]
    exact countCallsTo_eq_zero _ _ (fun c hc => by
      rw [t2i_trace_urls env host _ c hc]
      exact t2iURL_ne_upscaleURL host)
  · intro jsonData hm hn
    rw [t2i_trace_of_ok env host _ jsonData hm hn]
    simp [countCallsTo]
  · rw [hrest, countCallsTo_append]
    have hz : countCallsTo (t2iURL host) rest = 0 :=
      countCallsTo_eq_zero _ _ (fun c hc => by
        rw [hurls c hc]
        exact fun hcontra => t2iURL_ne_upscaleURL host hcontra.symm)
    omega
  · intro resp img tl hresp himg jsonData hm hn
    exact upscale_of_pipe env host ureq r h resp img tl hresp himg jsonData hm hn

/-- Environment in which every external effect succeeds, used by witnesses. -/
def envOK : ApiEnv :=
  ⟨fun _ => .ok "jt", fun _ => .ok "ju", fun _ _ => .ok (), fun _ _ => .ok "rbody",
    fun _ => .ok ⟨["img0"], "infostr"⟩, fun _ => .ok ⟨7, [7], [8]⟩,
    fun _ => .ok ⟨"upimg"⟩, fun _ => "modelA"⟩

/-- Concrete override settings used by witness requests. -/
def stubOverride : Txt2ImgOverrideSettings := ⟨"", none, "", 0, ""⟩

/-- Concrete text-to-image request used by witnesses, with batch count 2. -/
def req0 : TextToImageRequest :=
  ⟨"p", "", 512, 512, false, false, 0, "", 0, 0, 0, 0, 1, -1, -1, 0, "Euler a", 7, 20, 2,
    false, stubOverride⟩

/-- Concrete upscale request wrapping req0. -/
def ureq0 : UpscaleRequest := ⟨0, 2, "R-ESRGAN", some req0⟩

/-- Witness for C4: in the all-success environment the upscale run issues the
txt2img POST followed by exactly one upscale POST carrying the marshalled
payload, and the inner call issues exactly one txt2img POST. -/
theorem claim_C4_witness :
    (UpscaleImage envOK "h" (some ureq0)).1 =
      (TextToImage envOK "h" (some { req0 with NIter := 1 })).1 ++
        [⟨upscaleURL "h", "ju"⟩] ∧
    countCallsTo (t2iURL "h") (TextToImage envOK "h" (some { req0 with NIter := 1 })).1 = 1 := by
  refine ⟨(claim_C4 envOK "h" ureq0 req0 rfl).2.2.2.2
      ⟨["img0"], [7], [8], "modelA"⟩ "img0" [] rfl rfl "ju" rfl rfl,
    (claim_C4 envOK "h" ureq0 req0 rfl).2.1 "jt" rfl rfl⟩

/-- C6: TextToImage succeeds exactly when the request is non-nil, marshalling
and request construction succeed, the transport round-trip succeeds, and both
the response body and its embedded info string parse; the success value
carries the parsed images, seeds, subseeds and the extracted model. In every
other case it returns an error, never both. -/
theorem claim_C6 :
    ∀ (env : ApiEnv) (host : String) (req : Option TextToImageRequest),
      (isOkE (TextToImage env host req).2 = true ↔
        ∃ r jsonData body rs info,
          req = some r ∧ env.marshalT2I r = .ok jsonData ∧
          env.newRequest (t2iURL host) jsonData = .ok () ∧
          env.doPost (t2iURL host) jsonData = .ok body ∧
          env.unmarshalT2IResp body = .ok rs ∧
          env.unmarshalInfo rs.Info = .ok info) ∧
      (∀ resp, (TextToImage env host req).2 = .ok resp →
        ∃ r jsonData body rs info,
          req = some r ∧ env.marshalT2I r = .ok jsonData ∧
          env.doPost (t2iURL host) jsonData = .ok body ∧
          env.unmarshalT2IResp body = .ok rs ∧
          env.unmarshalInfo rs.Info = .ok info ∧
          resp = ⟨rs.Images, info.AllSeeds, info.AllSubseeds,
            env.extractModel rs.Info⟩) := by
  intro env host req
  rcases req with _ | r
  · simp [TextToImage, isOkE]
  rcases hm : env.marshalT2I r with e | jsonData
  · simp [TextToImage, hm, isOkE]
  rcases hn : env.newRequest (t2iURL host) jsonData with e | u
  · simp [TextToImage, hm, hn, isOkE]
  rcases hd : env.doPost (t2iURL host) jsonData with e | body
  · simp [TextToImage, hm, hn, hd, isOkE]
  rcases hu : env.unmarshalT2IResp body with e | rs
  · simp [TextToImage, hm, hn, hd, hu, isOkE]
  rcases hi : env.unmarshalInfo rs.Info with e | info
  · simp [TextToImage, hm, hn, hd, hu, hi, isOkE]
  constructor
  · refine iff_of_true (by simp [TextToImage, hm, hn, hd, hu, hi, isOkE]) ?_
    exact ⟨r, jsonData, body, rs, info, rfl, hm, hn, hd, hu, hi⟩
  · intro resp hresp
    simp only [TextToImage, hm, hn, hd, hu, hi] at hresp
    exact ⟨r, jsonData, body, rs, info, rfl, hm, hd, hu, hi, (Except.ok.inj hresp).symm⟩

/-- Witness for C6: the all-success environment yields a success. -/
theorem claim_C6_witness : isOkE (TextToImage envOK "h" (some req0)).2 = true :=
  (claim_C6 envOK "h" (some req0)).1.mpr
    ⟨req0, "jt", "rbody", ⟨["img0"], "infostr"⟩, ⟨7, [7], [8]⟩, rfl, rfl, rfl, rfl, rfl, rfl⟩

/-- C8 (amended): the unconditional Images[0] access in UpscaleImage is out of
bounds — a runtime panic — exactly when the inner TextToImage call returns
without error but with an empty image list; a successful regeneration does not
guarantee a non-empty image list. -/
theorem claim_C8 :
    ∀ (env : ApiEnv) (host : String) (ureq : UpscaleRequest) (r : TextToImageRequest),
      ureq.TextToImageRequest = some r →
      ((UpscaleImage env host (some ureq)).2 = .panics "index out of range" ↔
        ∃ resp, (TextToImage env host (some { r with NIter := 1 })).2 = .ok resp ∧
          resp.Images = []) := by
  intro env host ureq r h
  rcases ht : TextToImage env host (some { r with NIter := 1 }) with ⟨calls, tres⟩
  rcases tres with e | resp
  · simp [UpscaleImage, h, ht]
  rcases himg : resp.Images with _ | ⟨img, tl⟩
  · refine iff_of_true (by simp [UpscaleImage, h, ht, himg]) ⟨resp, by simp, himg⟩
  refine iff_of_false ?_ ?_
  · rcases hm : env.marshalUpscale ⟨ureq.ResizeMode, ureq.UpscalingResize, ureq.Upscaler1, img⟩
        with e | jsonData
    · simp [UpscaleImage, h, ht, himg, hm]
    rcases hn : env.newRequest (upscaleURL host) jsonData with e | u
    · simp [UpscaleImage, h, ht, himg, hm, hn]
    rcases hd : env.doPost (upscaleURL host) jsonData with e | body
    · simp [UpscaleImage, h, ht, himg, hm, hn, hd]
    rcases hu : env.unmarshalUpscaleResp body with e | rs <;>
      simp [UpscaleImage, h, ht, himg, hm, hn, hd, hu]
  · rintro ⟨resp2, hresp2, hempty⟩
    simp only at hresp2
    obtain rfl : resp = resp2 := Except.ok.inj hresp2
    rw [himg] at hempty
    cases hempty

/-- Environment identical to envOK except that the response body parses to an
empty image list, as the raw body with an empty images array does in Go. -/
def envEmptyImages : ApiEnv :=
  { envOK with unmarshalT2IResp := fun _ => .ok ⟨[], "infostr"⟩ }

/-- Counterexample for C8 as frozen: the inner TextToImage call returns without
error, yet the image list of the regeneration response is empty, and the
Images[0] access is out of bounds (runtime panic). -/
theorem claim_C8_counterexample :
    (TextToImage envEmptyImages "h" (some { req0 with NIter := 1 })).2 =
      .ok ⟨[], [7], [8], "modelA"⟩ ∧
    (UpscaleImage envEmptyImages "h" (some ureq0)).2 = .panics "index out of range" :=
  ⟨rfl, rfl⟩

/-- Witness for C8 (amended): the panic witness instantiated at the concrete
environment with an empty parsed image list. -/
theorem claim_C8_witness :
    (UpscaleImage envEmptyImages "h" (some ureq0)).2 = .panics "index out of range" :=
  (claim_C8 envEmptyImages "h" ureq0 req0 rfl).mpr ⟨⟨[], [7], [8], "modelA"⟩, rfl, rfl⟩


